import Mathlib

/-!
Verification of `src/training/train.py` (f8a-pypi-insights).

The Python source is shallowly embedded: pandas DataFrames of interaction
records become `List Row`; Python dicts become association lists in insertion
order; code that can raise returns `Except PyErr`; the unseeded
`DataFrame.sample(frac=1)` shuffles are parameters (arbitrary reorder
functions supplied by the caller of the embedding).
-/

set_option autoImplicit false

namespace Train

/-- Python exceptions that the embedded code can raise. -/
inductive PyErr where
  | typeError
  | valueError
  | zeroDivisionError
  | keyError
deriving DecidableEq, Repr

/-- A Python runtime value as consumed by `range(...)`: either an `int` or
some non-integer object (here: a bound method object). -/
inductive PyVal where
  | int (n : Nat)
  | boundMethod
deriving DecidableEq, Repr

/-- A Python dict key: the dicts in `train.py` are keyed by strings (package
names), but `make_user_item_df` indexes them with integer package ids, so the
key universe must hold both. -/
inductive PyKey where
  | str (s : String)
  | int (n : Nat)
deriving DecidableEq, Repr

/-- One interaction record, a row of the user-item DataFrame built at
train.py:79-85: `{"UserId": ..., "ItemId": ..., "Count": 1}`. -/
structure Row where
  user : Nat
  item : Nat
  count : Nat
deriving DecidableEq, Repr

/-- pandas `drop_duplicates(['UserId'])` (train.py:173): keep the first row
for each `UserId` value, in order; `seen` accumulates the user ids kept. -/
def dropDupByUser (seen : List Nat) : List Row → List Row
  | [] => []
  | r :: rs =>
    if r.user ∈ seen then dropDupByUser seen rs
    else r :: dropDupByUser (r.user :: seen) rs

/-- pandas `drop_duplicates(['ItemId'])` (train.py:175): keep the first row
for each `ItemId` value. -/
def dropDupByItem (seen : List Nat) : List Row → List Row
  | [] => []
  | r :: rs =>
    if r.item ∈ seen then dropDupByItem seen rs
    else r :: dropDupByItem (r.item :: seen) rs

/-- pandas `drop_duplicates()` with the default `keep='first'`
(train.py:176): keep the first copy of each full row. -/
def dropDupRows (seen : List Row) : List Row → List Row
  | [] => []
  | r :: rs =>
    if r ∈ seen then dropDupRows seen rs
    else r :: dropDupRows (r :: seen) rs

/-- pandas `drop_duplicates(keep=False)` (train.py:165 and :182): keep only
the rows whose full-row value occurs exactly once in the frame. -/
def dropDupKeepFalse (l : List Row) : List Row :=
  l.filter (fun r => l.count r = 1)

/-- Python built-in `round()`: round half to even (banker's rounding). -/
def pyRound (q : Rat) : Int :=
  let f := Rat.floor q
  let r := q - (f : Rat)
  if r < 1/2 then f
  else if 1/2 < r then f + 1
  else if f % 2 = 0 then f else f + 1

/-- Python `float("%.2f" % x)` (train.py:162): round to 2 decimal places. -/
def round2 (q : Rat) : Rat :=
  (pyRound (q * 100) : Rat) / 100

/-- `fractions.Fraction(data_df, train_df)` (train.py:177). The two-argument
`Fraction` constructor requires both arguments to be `numbers.Rational`
instances; pandas DataFrames are not, so the call raises
`TypeError("both arguments should be Rational instances")` — it never
produces the ratio `|train| / |full table|`. -/
def pyFractionOfFrames (_data_df _train_df : List Row) : Except PyErr Rat :=
  .error .typeError

/-- `extra_df` (train.py:160-167): the top-up rows appended to the train set
when the realized train fraction falls below 0.80.  `σ` stands for the
unseeded `sample(frac=1)` shuffle at train.py:166. -/
def extra_df (σ : List Row → List Row) (frac : Rat) (data_df train_df : List Row) :
    List Row :=
  let remain_frac := round2 (4/5 - frac)
  let len_df := data_df.length
  let no_rows := pyRound (remain_frac * (len_df : Rat))
  let df_remain := dropDupKeepFalse (data_df ++ train_df)
  let df_remain_rand := σ df_remain
  df_remain_rand.take no_rows.toNat

/-- `train_test_split` (train.py:170-185).  `σ_user`, `σ_item`, `σ_extra`
stand for the three unseeded `sample(frac=1)` shuffles (train.py:172, :174
and the one inside `extra_df`).  The `Fraction` call at train.py:177 is
applied to the two DataFrames themselves, so the function raises `TypeError`
before the 0.80 comparison, the top-up, or the test-set construction can
run. -/
def train_test_split (σ_user σ_item σ_extra : List Row → List Row)
    (data_df : List Row) : Except PyErr (List Row × List Row) := do
  let data_df1 := σ_user data_df
  let df_user := dropDupByUser [] data_df1
  let data_df2 := σ_item data_df1
  let df_item := dropDupByItem [] data_df2
  let train_df := dropDupRows [] (df_user ++ df_item)
  let fraction ← pyFractionOfFrames data_df2 train_df
  let train_df :=
    if fraction < 4/5 then train_df ++ extra_df σ_extra fraction data_df2 train_df
    else train_df
  let test_df := dropDupKeepFalse (data_df2 ++ train_df)
  return (train_df, test_df)

/-- State of the two mapping objects in the S3 bucket
(`PACKAGE_TO_ID_MAP` and `MANIFEST_TO_ID_MAP`). -/
structure S3Dicts where
  pkgExists : Bool
  mnfExists : Bool
deriving DecidableEq, Repr

/-- Observable outcome of one `save_dictionaries` call: how many write
operations were issued against each mapping object, the bucket state
afterwards (a successful write creates the object), and whether the
`Exception("Unable to store data files for scoring")` was raised. -/
structure SaveDictsResult where
  pkgWrites : Nat
  mnfWrites : Nat
  state : S3Dicts
  raised : Bool
deriving DecidableEq, Repr

/-- `save_dictionaries` (train.py:258-270).  The writes run only under
`if not (object_exists(PACKAGE_TO_ID_MAP) and object_exists(MANIFEST_TO_ID_MAP))`;
`pkgStatus` / `mnfStatus` are the success reports of the two
`write_json_file` calls.  The raise condition is the source's
`if not pkg_status or mnf_status`, which Python parses as
`(not pkg_status) or mnf_status`. -/
def save_dictionaries (st : S3Dicts) (pkgStatus mnfStatus : Bool) :
    SaveDictsResult :=
  if !(st.pkgExists && st.mnfExists) then
    { pkgWrites := 1
      mnfWrites := 1
      state := ⟨st.pkgExists || pkgStatus, st.mnfExists || mnfStatus⟩
      raised := !pkgStatus || mnfStatus }
  else
    { pkgWrites := 0, mnfWrites := 0, state := st, raised := false }

/-- `save_hyperparams` (train.py:273-278): raises
`Exception("Unable to store hyperparameters file")` iff the metrics write
reports failure.  Returns `true` iff the exception is raised. -/
def save_hyperparams (status : Bool) : Bool :=
  !status

/-- One step of the package-id loop (train.py:93-97): for each package name,
if it is not yet a key of the dict, bind it to the running `count` and
increment `count`.  The dict is an association list in insertion order. -/
def genPkgStep (s : List (String × Nat) × Nat) (package_name : String) :
    List (String × Nat) × Nat :=
  if (s.1.map Prod.fst).contains package_name then s
  else (s.1 ++ [(package_name, s.2)], s.2 + 1)

/-- `generate_package_id_dict` (train.py:89-98). -/
def generate_package_id_dict (manifest_list : List (List String)) :
    List (String × Nat) :=
  (manifest_list.foldl (fun s manifest => manifest.foldl genPkgStep s) ([], 0)).1

/-- Python `set.add` on a set represented as a duplicate-free list in
insertion order (train.py:119). -/
def setAdd (s : List Nat) (x : Nat) : List Nat :=
  if x ∈ s then s else s ++ [x]

/-- The inner loop of `generate_manifest_id_dict` (train.py:117-119): build
`package_set` by indexing `package_id_dict` with each package of the
manifest; a missing key raises `KeyError`. -/
def pkgSet (package_id_dict : List (String × Nat)) (package_set : List Nat) :
    List String → Except PyErr (List Nat)
  | [] => .ok package_set
  | p :: ps =>
    match package_id_dict.lookup p with
    | some i => pkgSet package_id_dict (setAdd package_set i) ps
    | none => .error .keyError

/-- The outer loop of `generate_manifest_id_dict` (train.py:114-121): assign
`count` (starting at 0) to each manifest in input order and store its package
set. -/
def genMnfAux (package_id_dict : List (String × Nat)) (count : Nat)
    (acc : List (Nat × List Nat)) :
    List (List String) → Except PyErr (List (Nat × List Nat))
  | [] => .ok acc
  | manifest :: ms =>
    match pkgSet package_id_dict [] manifest with
    | .ok s => genMnfAux package_id_dict (count + 1) (acc ++ [(count, s)]) ms
    | .error e => .error e

/-- `generate_manifest_id_dict` (train.py:112-122). -/
def generate_manifest_id_dict (manifest_list : List (List String))
    (package_id_dict : List (String × Nat)) :
    Except PyErr (List (Nat × List Nat)) :=
  genMnfAux package_id_dict 0 [] manifest_list

/-- Specification-side definition (for the first-occurrence-order part of the
Identifier Mapper claim): the elements of a list with later duplicates
removed, keeping first occurrences, given an initial set `seen` of elements
to skip. -/
def firstSeen (seen : List String) : List String → List String
  | [] => []
  | p :: ps =>
    if seen.contains p then firstSeen seen ps
    else p :: firstSeen (seen ++ [p]) ps

/-- The keys of a string-keyed Python dict as `PyKey`s: when
`make_user_item_df` receives `package_id_dict`, every key of that dict is a
package-name string. -/
def pyKeysOf (d : List (String × Nat)) : List (PyKey × Nat) :=
  d.map (fun e => (PyKey.str e.1, e.2))

/-- The inner loop of `make_user_item_df` (train.py:77-85): for each
`package` in the manifest's stored value, evaluate
`package_dict[package]` — indexing with a key absent from the dict raises
`KeyError` — and append the record `(user_id, item_id, 1)`. -/
def muidGo (package_dict : List (PyKey × Nat)) (user_id : Nat) (acc : List Row) :
    List Nat → Except PyErr (List Row)
  | [] => .ok acc
  | package :: rest =>
    match package_dict.lookup (PyKey.int package) with
    | some item_id => muidGo package_dict user_id (acc ++ [⟨user_id, item_id, 1⟩]) rest
    | none => .error .keyError

/-- The outer loop of `make_user_item_df` (train.py:75-85): iterate the
entries `(k, v)` of `manifest_dict`; `user_id = int(k)`. -/
def muidAux (package_dict : List (PyKey × Nat)) (acc : List Row) :
    List (Nat × List Nat) → Except PyErr (List Row)
  | [] => .ok acc
  | (k, v) :: rest =>
    match muidGo package_dict k acc v with
    | .ok acc' => muidAux package_dict acc' rest
    | .error e => .error e

/-- `make_user_item_df` (train.py:72-86).  Its `manifest_dict` argument is
the manifest-id dict (values are lists of package ids) and its
`package_dict` argument is the package-id dict (keyed by package-name
strings). -/
def make_user_item_df (manifest_dict : List (Nat × List Nat))
    (package_dict : List (PyKey × Nat)) : Except PyErr (List Row) :=
  muidAux package_dict [] manifest_dict

/-- Modelled from the spec: the external manifest validator
(`rudra`'s `BQValidation.validate_pypi`, not part of this repository)
"returns the subset of names that exist in the target package registry";
modelled as filtering the manifest by a registry-membership predicate. -/
def validate_pypi (registry : String → Bool) (manifest : List String) :
    List String :=
  manifest.filter registry

/-- `validate_manifest_data` (train.py:135-141): replace each manifest of the
list, at its own index, by its validator-filtered version.  The Python
function mutates `manifest_list` in place; the embedding returns the updated
list, which `preprocess_raw_data` goes on to use. -/
def validate_manifest_data (registry : String → Bool) :
    List (List String) → List (List String)
  | [] => []
  | manifest :: rest =>
    validate_pypi registry manifest :: validate_manifest_data registry rest

/-- The length trim of `preprocess_raw_data` (train.py:150-151):
`[manifest for manifest in all_manifest_list if lower_limit < len(manifest) < upper_limit]`. -/
def trimmed_manifest_list (lower_limit upper_limit : Int)
    (all_manifest_list : List (List String)) : List (List String) :=
  all_manifest_list.filter
    (fun manifest =>
      lower_limit < (manifest.length : Int) && (manifest.length : Int) < upper_limit)

/-- `preprocess_raw_data` (train.py:143-156): validate the raw manifests,
trim by length, then generate the two id dicts. -/
def preprocess_raw_data (registry : String → Bool)
    (raw_manifest_list : List (List String)) (lower_limit upper_limit : Int) :
    List (String × Nat) × Except PyErr (List (Nat × List Nat)) :=
  let all_manifest_list := validate_manifest_data registry raw_manifest_list
  let trimmed := trimmed_manifest_list lower_limit upper_limit all_manifest_list
  let package_id_dict := generate_package_id_dict trimmed
  (package_id_dict, generate_manifest_id_dict trimmed package_id_dict)

/-- Python `range(...)` as applied at train.py:208 / :223: requires an
integer; applied to a bound-method object it raises
`TypeError("'method' object cannot be interpreted as an integer")`. -/
def pyRange : PyVal → Except PyErr (List Nat)
  | .int n => .ok (List.range n)
  | .boundMethod => .error .typeError

/-- `np.intersect1d(x, recommendations).size` (train.py:212 / :227): the
number of distinct values common to the two arrays. -/
def intersect1dSize (x recommendations : List Nat) : Nat :=
  ((x.filter (fun v => recommendations.contains v)).dedup).length

/-- One element of the `recall` / `precision` accumulator lists
(train.py:214 / :229): a Python dict
`{"recall"/"precision": value, "length": ..., "user": ...}`. -/
structure Sample where
  value : Rat
  length : Nat
  user : Nat
deriving DecidableEq, Repr

/-- `np.mean` over the accumulator list (train.py:217 / :233): on the empty
list it returns `nan` (modelled as `none`); on a non-empty list its elements
are Python dicts, and summing dicts raises
`TypeError("unsupported operand type(s) for +: 'dict' and 'dict'")`. -/
def npMeanSamples (l : List Sample) : Except PyErr (Option Rat) :=
  if l.isEmpty then .ok none else .error .typeError

/-- The per-user loop body of `recall_at_m` (train.py:208-216), over a given
list of user ids: `x` is the user's test items, `rec_l = x.size`; when
`rec_l` is zero the division raises `ZeroDivisionError`, which the
`try/except` catches, skipping the append — so the user contributes no
sample. -/
def recallSamples (m : Nat) (test_df : List Row) (topN : Nat → Nat → List Nat)
    (users : List Nat) : List Sample :=
  users.filterMap (fun i =>
    let x := (test_df.filter (fun r => r.user == i)).map Row.item
    let rec_l := x.length
    let recommendations := topN i m
    let intersection_length := intersect1dSize x recommendations
    if rec_l = 0 then none
    else some ⟨(intersection_length : Rat) / (rec_l : Rat), rec_l, i⟩)

/-- `recall_at_m` (train.py:205-217). -/
def recall_at_m (m : Nat) (test_df : List Row) (topN : Nat → Nat → List Nat)
    (user_count : PyVal) : Except PyErr (Option Rat) := do
  let users ← pyRange user_count
  npMeanSamples (recallSamples m test_df topN users)

/-- The per-user loop body of `precision_at_m` (train.py:223-232):
`r_size = recommendations.size`; when `r_size` is zero the division raises
`ZeroDivisionError`, caught by the `try/except`, so the user contributes no
sample. -/
def precisionSamples (m : Nat) (test_df : List Row) (topN : Nat → Nat → List Nat)
    (users : List Nat) : List Sample :=
  users.filterMap (fun i =>
    let x := (test_df.filter (fun r => r.user == i)).map Row.item
    let recommendations := topN i m
    let r_size := recommendations.length
    let intersection_length := intersect1dSize x recommendations
    if r_size = 0 then none
    else some ⟨(intersection_length : Rat) / (r_size : Rat), r_size, i⟩)

/-- `precision_at_m` (train.py:220-233). -/
def precision_at_m (m : Nat) (test_df : List Row) (topN : Nat → Nat → List Nat)
    (user_count : PyVal) : Except PyErr (Option Rat) := do
  let users ← pyRange user_count
  npMeanSamples (precisionSamples m test_df topN users)

/-- `user_count = user_item_df.groupby("UserId").size` (train.py:238): note
the missing call parentheses — the attribute access yields the bound method
object itself, not a row count, whatever the DataFrame is. -/
def groupby_userid_size (_user_item_df : List Row) : PyVal :=
  .boundMethod

/-- `precision_recall_at_m` (train.py:236-247): compute both metrics inside
`try: ... except ValueError: pass` (which returns `None`); any other
exception propagates. -/
def precision_recall_at_m (m : Nat) (test_df : List Row)
    (topN : Nat → Nat → List Nat) (user_item_df : List Row) :
    Except PyErr (Option (Option Rat × Option Rat)) :=
  let user_count := groupby_userid_size user_item_df
  match (do
    let precisionV ← precision_at_m m test_df topN user_count
    let recallV ← recall_at_m m test_df topN user_count
    pure (precisionV, recallV) : Except PyErr (Option Rat × Option Rat)) with
  | .ok pr => .ok (some pr)
  | .error .valueError => .ok none
  | .error e => .error e

/-- C1: the splitter's output invariant never materializes: on the concrete
one-row interaction table `[(UserId 0, ItemId 0, Count 1)]` (taking the
shuffles to be the identity), `train_test_split` raises `TypeError` at the
`Fraction(data_df, train_df)` call instead of returning a train/test pair,
so no returned train set covers the table's user and item ids. -/
theorem train_test_split_concrete_crash :
    train_test_split id id id [⟨0, 0, 1⟩] = .error .typeError := by
  rfl

/-- C2: for every interaction table and every choice of the three shuffles,
`train_test_split` raises `TypeError`: the realized train fraction is
computed as `Fraction(data_df, train_df)` on the two DataFrames themselves,
not as the ratio `|train| / |full table|`, so the rounding, the 0.80
comparison and the `extra_df` top-up are never reached. -/
theorem train_test_split_fraction_typeerror
    (σ_user σ_item σ_extra : List Row → List Row) (data_df : List Row) :
    train_test_split σ_user σ_item σ_extra data_df = .error .typeError := by
  rfl

/-- C4: with no prior mapping objects present, a run in which both mapping
writes succeed still raises the "unable to store" exception, while a run in
which the manifest-map write fails (and the package-map write succeeds) does
not raise it — `if not pkg_status or mnf_status` parses as
`(not pkg_status) or mnf_status`.  The metrics write (`save_hyperparams`)
does raise exactly on failure. -/
theorem save_dictionaries_raise_mismatch :
    (save_dictionaries ⟨false, false⟩ true true).raised = true
    ∧ (save_dictionaries ⟨false, false⟩ true false).raised = false
    ∧ save_hyperparams false = true
    ∧ save_hyperparams true = false := by
  decide

/-- C3: for every cutoff, test set, model and user-item table, the evaluator
`precision_recall_at_m` raises `TypeError` instead of returning per-user
means: `user_count = user_item_df.groupby("UserId").size` lacks the call
parentheses, so `range(user_count)` is applied to a bound method object, and
the resulting `TypeError` is not caught by the `except ValueError` handler
(nor would `np.mean` over the dict samples return a mean: on a non-empty
sample list it too raises `TypeError`). -/
theorem precision_recall_at_m_typeerror (m : Nat) (test_df : List Row)
    (topN : Nat → Nat → List Nat) (user_item_df : List Row) :
    precision_recall_at_m m test_df topN user_item_df = .error .typeError := by
  rfl

/-- C7: the length trim retains a manifest exactly when
`lower_limit < package_count < upper_limit`, strictly on both sides; hence a
manifest of length exactly `lower_limit` or exactly `upper_limit` is
excluded and one strictly between the bounds is included. -/
theorem length_filter_strict_bounds (lower_limit upper_limit : Int)
    (all_manifest_list : List (List String)) (manifest : List String) :
    manifest ∈ trimmed_manifest_list lower_limit upper_limit all_manifest_list
      ↔ manifest ∈ all_manifest_list
        ∧ lower_limit < (manifest.length : Int)
        ∧ (manifest.length : Int) < upper_limit := by
  simp [trimmed_manifest_list, List.mem_filter, and_assoc]

/-- C9 counterexample: with the package-to-id map already present in the
bucket but the manifest-to-id map absent, `save_dictionaries` does not
"write nothing": the guard `not (exists(PKG) and exists(MNF))` passes and
both mappings are written, overwriting the existing package map. -/
theorem save_dictionaries_overwrites_lone_mapping :
    (save_dictionaries ⟨true, false⟩ true true).pkgWrites = 1
    ∧ (save_dictionaries ⟨true, false⟩ true true).mnfWrites = 1 := by
  decide

/-- C9 amended: `save_dictionaries` skips its writes exactly when BOTH
mapping objects already exist; consequently, starting from an empty bucket,
a first call with succeeding writes performs the mapping writes and any
second call on the resulting state performs none (the mappings are written
only once across the two calls). -/
theorem save_dictionaries_skip_iff_both_exist (st : S3Dicts)
    (s1 s2 b1 b2 : Bool) :
    ((save_dictionaries st s1 s2).pkgWrites = 0
        ∧ (save_dictionaries st s1 s2).mnfWrites = 0
      ↔ st.pkgExists = true ∧ st.mnfExists = true)
    ∧ (save_dictionaries (save_dictionaries ⟨false, false⟩ true true).state b1 b2).pkgWrites = 0
    ∧ (save_dictionaries (save_dictionaries ⟨false, false⟩ true true).state b1 b2).mnfWrites = 0 := by
  obtain ⟨pe, me⟩ := st
  cases pe <;> cases me <;> simp [save_dictionaries]

/-- C10: `validate_manifest_data` keeps the number of manifests unchanged
and replaces the manifest at each index by its validator-filtered subset at
the same index — in particular a manifest filtered down to the empty list
stays in the list as an empty entry. -/
theorem validate_manifest_data_frame (registry : String → Bool)
    (manifest_list : List (List String)) :
    (validate_manifest_data registry manifest_list).length = manifest_list.length
    ∧ ∀ i : Nat,
        (validate_manifest_data registry manifest_list)[i]?
          = (manifest_list[i]?).map (fun manifest => manifest.filter registry) := by
  induction manifest_list with
  | nil => exact ⟨rfl, by intro i; simp [validate_manifest_data]⟩
  | cons m rest ih =>
    refine ⟨by simp [validate_manifest_data, ih.1], ?_⟩
    intro i
    cases i with
    | zero => simp [validate_manifest_data, validate_pypi]
    | succ j => simpa [validate_manifest_data] using ih.2 j

lemma mem_recallSamples_user (m : Nat) (test_df : List Row)
    (topN : Nat → Nat → List Nat) (users : List Nat) (i : Nat) :
    (∃ e ∈ recallSamples m test_df topN users, e.user = i)
      ↔ i ∈ users ∧ test_df.filter (fun r => r.user == i) ≠ [] := by
  constructor
  · rintro ⟨e, he, hu⟩
    rw [recallSamples, List.mem_filterMap] at he
    obtain ⟨a, ha, hfa⟩ := he
    by_cases h : ((test_df.filter (fun r => r.user == a)).map Row.item).length = 0
    · simp [h] at hfa
    · simp only [h, if_false] at hfa
      injection hfa with h2
      subst h2
      obtain rfl : a = i := hu
      refine ⟨ha, ?_⟩
      intro hnil
      simp [hnil] at h
  · rintro ⟨hin, hne⟩
    have hlen : ((test_df.filter (fun r => r.user == i)).map Row.item).length ≠ 0 := by
      simpa using hne
    refine ⟨⟨(intersect1dSize ((test_df.filter (fun r => r.user == i)).map Row.item)
            (topN i m) : Rat)
          / (((test_df.filter (fun r => r.user == i)).map Row.item).length : Rat),
        ((test_df.filter (fun r => r.user == i)).map Row.item).length, i⟩, ?_, rfl⟩
    rw [recallSamples, List.mem_filterMap]
    refine ⟨i, hin, ?_⟩
    simp only [hlen, if_false]

lemma mem_precisionSamples_user (m : Nat) (test_df : List Row)
    (topN : Nat → Nat → List Nat) (users : List Nat) (i : Nat) :
    (∃ e ∈ precisionSamples m test_df topN users, e.user = i)
      ↔ i ∈ users ∧ topN i m ≠ [] := by
  constructor
  · rintro ⟨e, he, hu⟩
    rw [precisionSamples, List.mem_filterMap] at he
    obtain ⟨a, ha, hfa⟩ := he
    by_cases h : (topN a m).length = 0
    · simp [h] at hfa
    · simp only [h, if_false] at hfa
      injection hfa with h2
      subst h2
      obtain rfl : a = i := hu
      refine ⟨ha, ?_⟩
      intro hnil
      simp [hnil] at h
  · rintro ⟨hin, hne⟩
    have hlen : (topN i m).length ≠ 0 := by simpa using hne
    refine ⟨⟨(intersect1dSize ((test_df.filter (fun r => r.user == i)).map Row.item)
            (topN i m) : Rat)
          / ((topN i m).length : Rat),
        (topN i m).length, i⟩, ?_, rfl⟩
    rw [precisionSamples, List.mem_filterMap]
    refine ⟨i, hin, ?_⟩
    simp only [hlen, if_false]

/-- C5: over the users `0 .. user_count-1`, a user whose truth set in the
test table is empty contributes no recall sample, and a user for whom the
model returns zero recommendations contributes no precision sample — such
users are exactly the ones omitted from the respective sample list — and the
zero denominator is not an error: neither metric ever surfaces a
`ZeroDivisionError` (it is caught per user, skipping the append). -/
theorem eval_zero_denominator_skipped (m n i : Nat) (test_df : List Row)
    (topN : Nat → Nat → List Nat) :
    ((∃ e ∈ recallSamples m test_df topN (List.range n), e.user = i)
      ↔ i < n ∧ test_df.filter (fun r => r.user == i) ≠ [])
    ∧ ((∃ e ∈ precisionSamples m test_df topN (List.range n), e.user = i)
      ↔ i < n ∧ topN i m ≠ [])
    ∧ recall_at_m m test_df topN (.int n) ≠ .error .zeroDivisionError
    ∧ precision_at_m m test_df topN (.int n) ≠ .error .zeroDivisionError := by
  refine ⟨?_, ?_, ?_, ?_⟩
  · simpa [List.mem_range] using
      mem_recallSamples_user m test_df topN (List.range n) i
  · simpa [List.mem_range] using
      mem_precisionSamples_user m test_df topN (List.range n) i
  · have h : recall_at_m m test_df topN (.int n)
        = npMeanSamples (recallSamples m test_df topN (List.range n)) := rfl
    rw [h, npMeanSamples]
    split <;> simp
  · have h : precision_at_m m test_df topN (.int n)
        = npMeanSamples (precisionSamples m test_df topN (List.range n)) := rfl
    rw [h, npMeanSamples]
    split <;> simp

lemma lookup_int_pyKeysOf (d : List (String × Nat)) (n : Nat) :
    (pyKeysOf d).lookup (PyKey.int n) = none := by
  induction d with
  | nil => rfl
  | cons e rest ih =>
    obtain ⟨s, v⟩ := e
    exact ih

lemma muidGo_keyerror (d : List (String × Nat)) (u : Nat) (acc : List Row)
    (p : Nat) (ps : List Nat) :
    muidGo (pyKeysOf d) u acc (p :: ps) = .error .keyError := by
  simp [muidGo, lookup_int_pyKeysOf]

lemma muidAux_keyerror (d : List (String × Nat))
    (manifest_dict : List (Nat × List Nat)) (acc : List Row)
    (h : ∃ kv ∈ manifest_dict, kv.2 ≠ []) :
    muidAux (pyKeysOf d) acc manifest_dict = .error .keyError := by
  induction manifest_dict generalizing acc with
  | nil => simp at h
  | cons kv rest ih =>
    obtain ⟨k, v⟩ := kv
    cases v with
    | nil =>
      have h' : ∃ kv ∈ rest, kv.2 ≠ [] := by
        obtain ⟨kv', hmem, hne⟩ := h
        rcases List.mem_cons.1 hmem with rfl | hmem'
        · simp at hne
        · exact ⟨kv', hmem', hne⟩
      have hgo : muidGo (pyKeysOf d) k acc [] = .ok acc := rfl
      rw [muidAux, hgo]
      exact ih acc h'
    | cons p ps =>
      rw [muidAux, muidGo_keyerror]

/-- C8: the Interaction Table Builder never emits its records: for every
manifest-id dict containing at least one manifest with a non-empty package
set, and every package-id dict (whose keys are package-name strings),
`make_user_item_df` raises `KeyError` — `item_id = package_dict[package]`
indexes the name-keyed dict with an integer package id. -/
theorem make_user_item_df_keyerror (manifest_dict : List (Nat × List Nat))
    (package_id_dict : List (String × Nat))
    (h : ∃ kv ∈ manifest_dict, kv.2 ≠ []) :
    make_user_item_df manifest_dict (pyKeysOf package_id_dict)
      = .error .keyError :=
  muidAux_keyerror package_id_dict manifest_dict [] h

/-- Witness for C8: on the concrete manifest dict `{0: [0]}` and package
dict `{"flask": 0}`, the builder raises `KeyError`. -/
theorem make_user_item_df_keyerror_witness :
    make_user_item_df [(0, [0])] (pyKeysOf [("flask", 0)]) = .error .keyError :=
  make_user_item_df_keyerror [(0, [0])] [("flask", 0)] (by decide)

lemma lookup_isSome_iff_mem_keys (d : List (String × Nat)) (p : String) :
    (d.lookup p).isSome = true ↔ p ∈ d.map Prod.fst := by
  induction d with
  | nil => simp [List.lookup]
  | cons e rest ih =>
    obtain ⟨k, v⟩ := e
    by_cases h : p = k
    · subst h
      simp [List.lookup]
    · have hb : (p == k) = false := by simpa using h
      simp [List.lookup, hb, ih, h]

lemma genPkgStep_inv (s : List (String × Nat) × Nat) (p : String)
    (h1 : s.2 = s.1.length) (h2 : s.1.map Prod.snd = List.range s.1.length) :
    (genPkgStep s p).2 = (genPkgStep s p).1.length
    ∧ (genPkgStep s p).1.map Prod.snd = List.range (genPkgStep s p).1.length := by
  unfold genPkgStep
  split
  · exact ⟨h1, h2⟩
  · refine ⟨by simp [h1], ?_⟩
    simp [List.range_succ, h2, h1]

lemma foldl_genPkgStep_inv (l : List String) :
    ∀ s : List (String × Nat) × Nat,
    s.2 = s.1.length → s.1.map Prod.snd = List.range s.1.length →
    (l.foldl genPkgStep s).2 = (l.foldl genPkgStep s).1.length
    ∧ (l.foldl genPkgStep s).1.map Prod.snd
        = List.range (l.foldl genPkgStep s).1.length := by
  induction l with
  | nil => intro s h1 h2; exact ⟨h1, h2⟩
  | cons p ps ih =>
    intro s h1 h2
    obtain ⟨h1', h2'⟩ := genPkgStep_inv s p h1 h2
    simpa [List.foldl_cons] using ih (genPkgStep s p) h1' h2'

lemma foldl_genPkgStep_keys (l : List String) :
    ∀ s : List (String × Nat) × Nat,
    (l.foldl genPkgStep s).1.map Prod.fst
      = s.1.map Prod.fst ++ firstSeen (s.1.map Prod.fst) l := by
  induction l with
  | nil => intro s; simp [firstSeen]
  | cons p ps ih =>
    intro s
    by_cases h : (s.1.map Prod.fst).contains p = true
    · have hstep : genPkgStep s p = s := by
        unfold genPkgStep
        rw [if_pos h]
      have heq : firstSeen (s.1.map Prod.fst) (p :: ps)
          = firstSeen (s.1.map Prod.fst) ps := by
        simp only [firstSeen]
        rw [if_pos h]
      rw [List.foldl_cons, hstep, ih s, heq]
    · have hstep : genPkgStep s p = (s.1 ++ [(p, s.2)], s.2 + 1) := by
        unfold genPkgStep
        rw [if_neg h]
      have heq : firstSeen (s.1.map Prod.fst) (p :: ps)
          = p :: firstSeen (s.1.map Prod.fst ++ [p]) ps := by
        simp only [firstSeen]
        rw [if_neg h]
      rw [List.foldl_cons, hstep, ih _, heq]
      simp

lemma foldl_manifests_flatten (ms : List (List String)) :
    ∀ s : List (String × Nat) × Nat,
    ms.foldl (fun s manifest => manifest.foldl genPkgStep s) s
      = ms.flatten.foldl genPkgStep s := by
  induction ms with
  | nil => intro s; rfl
  | cons m rest ih =>
    intro s
    simp [List.foldl_append, ih]

lemma firstSeen_nodup_not_seen (l : List String) :
    ∀ seen : List String,
    (firstSeen seen l).Nodup ∧ ∀ x ∈ firstSeen seen l, x ∉ seen := by
  induction l with
  | nil => intro seen; simp [firstSeen]
  | cons p ps ih =>
    intro seen
    by_cases h : seen.contains p = true
    · have heq : firstSeen seen (p :: ps) = firstSeen seen ps := by
        simp only [firstSeen]
        rw [if_pos h]
      rw [heq]
      exact ih seen
    · have heq : firstSeen seen (p :: ps) = p :: firstSeen (seen ++ [p]) ps := by
        simp only [firstSeen]
        rw [if_neg h]
      obtain ⟨hnd, hns⟩ := ih (seen ++ [p])
      have hp : p ∉ seen := by simpa using h
      constructor
      · rw [heq]
        exact List.nodup_cons.2 ⟨fun hmem => hns p hmem (by simp), hnd⟩
      · intro x hx
        rw [heq] at hx
        rcases List.mem_cons.1 hx with rfl | hx'
        · exact hp
        · exact fun hxs => hns x hx' (List.mem_append.2 (Or.inl hxs))

lemma mem_seen_or_firstSeen (l : List String) :
    ∀ (seen : List String) (x : String),
    x ∈ l → x ∈ seen ∨ x ∈ firstSeen seen l := by
  induction l with
  | nil => intro seen x hx; simp at hx
  | cons p ps ih =>
    intro seen x hx
    by_cases h : seen.contains p = true
    · have heq : firstSeen seen (p :: ps) = firstSeen seen ps := by
        simp only [firstSeen]
        rw [if_pos h]
      rcases List.mem_cons.1 hx with rfl | hx'
      · left; simpa using h
      · rw [heq]; exact ih seen x hx'
    · have heq : firstSeen seen (p :: ps) = p :: firstSeen (seen ++ [p]) ps := by
        simp only [firstSeen]
        rw [if_neg h]
      rcases List.mem_cons.1 hx with rfl | hx'
      · right; rw [heq]; exact List.mem_cons_self _ _
      · rcases ih (seen ++ [p]) x hx' with hs | hf
        · rcases List.mem_append.1 hs with hs' | hp'
          · left; exact hs'
          · right
            rw [heq]
            have hxp : x = p := by simpa using hp'
            simp [hxp]
        · right; rw [heq]; exact List.mem_cons_of_mem _ hf

lemma mem_setAdd (s : List Nat) (x y : Nat) :
    y ∈ setAdd s x ↔ y ∈ s ∨ y = x := by
  by_cases h : x ∈ s
  · have heq : setAdd s x = s := by simp [setAdd, h]
    rw [heq]
    constructor
    · exact Or.inl
    · rintro (hy | rfl)
      · exact hy
      · exact h
  · have heq : setAdd s x = s ++ [x] := by simp [setAdd, h]
    rw [heq]
    simp

lemma nodup_setAdd (s : List Nat) (x : Nat) (h : s.Nodup) :
    (setAdd s x).Nodup := by
  by_cases hx : x ∈ s
  · simpa [setAdd, hx] using h
  · simp [setAdd, hx, List.nodup_append, h]

lemma pkgSet_ok (d : List (String × Nat)) (m : List String) :
    ∀ acc : List Nat,
    (∀ p ∈ m, (d.lookup p).isSome = true) → acc.Nodup →
    ∃ s, pkgSet d acc m = .ok s ∧ s.Nodup
      ∧ ∀ x, x ∈ s ↔ x ∈ acc ∨ ∃ p ∈ m, d.lookup p = some x := by
  induction m with
  | nil => intro acc _ hacc; exact ⟨acc, rfl, hacc, by simp⟩
  | cons p ps ih =>
    intro acc hcov hacc
    obtain ⟨i, hi⟩ := Option.isSome_iff_exists.1 (hcov p (List.mem_cons_self _ _))
    obtain ⟨s, hs, hnd, hmem⟩ :=
      ih (setAdd acc i) (fun q hq => hcov q (List.mem_cons_of_mem _ hq))
        (nodup_setAdd acc i hacc)
    refine ⟨s, ?_, hnd, ?_⟩
    · simp only [pkgSet]
      rw [hi]
      exact hs
    · intro x
      rw [hmem x]
      constructor
      · rintro (hx | hx)
        · rcases (mem_setAdd acc i x).1 hx with hx' | rfl
          · exact Or.inl hx'
          · exact Or.inr ⟨p, List.mem_cons_self _ _, hi⟩
        · obtain ⟨q, hq, hq'⟩ := hx
          exact Or.inr ⟨q, List.mem_cons_of_mem _ hq, hq'⟩
      · rintro (hx | ⟨q, hq, hq'⟩)
        · exact Or.inl ((mem_setAdd acc i x).2 (Or.inl hx))
        · rcases List.mem_cons.1 hq with rfl | hq2
          · rw [hi] at hq'
            injection hq' with hxi
            exact Or.inl ((mem_setAdd acc i x).2 (Or.inr hxi.symm))
          · exact Or.inr ⟨q, hq2, hq'⟩

lemma genMnfAux_ok (d : List (String × Nat)) (ms : List (List String)) :
    ∀ (count : Nat) (acc : List (Nat × List Nat)),
    (∀ m ∈ ms, ∀ p ∈ m, (d.lookup p).isSome = true) →
    ∃ tail, genMnfAux d count acc ms = .ok (acc ++ tail)
      ∧ tail.length = ms.length
      ∧ ∀ i mi, ms[i]? = some mi →
          ∃ v, tail[i]? = some (count + i, v) ∧ v.Nodup
            ∧ ∀ x, x ∈ v ↔ ∃ p ∈ mi, d.lookup p = some x := by
  induction ms with
  | nil =>
    intro count acc _
    exact ⟨[], by simp [genMnfAux], rfl, by intro i mi h; simp at h⟩
  | cons m rest ih =>
    intro count acc hcov
    obtain ⟨s, hs, hnd, hmem⟩ :=
      pkgSet_ok d m [] (fun p hp => hcov m (List.mem_cons_self _ _) p hp)
        List.nodup_nil
    obtain ⟨tail, htail, hlen, hidx⟩ :=
      ih (count + 1) (acc ++ [(count, s)])
        (fun m' hm' => hcov m' (List.mem_cons_of_mem _ hm'))
    refine ⟨(count, s) :: tail, ?_, by simp [hlen], ?_⟩
    · simp only [genMnfAux]
      rw [hs]
      show genMnfAux d (count + 1) (acc ++ [(count, s)]) rest
        = Except.ok (acc ++ (count, s) :: tail)
      rw [htail]
      simp
    · intro i mi hmi
      cases i with
      | zero =>
        have hm0 : m = mi := by simpa using hmi
        subst hm0
        refine ⟨s, by simp, hnd, ?_⟩
        intro x
        simpa using hmem x
      | succ j =>
        have hmi' : rest[j]? = some mi := by simpa using hmi
        obtain ⟨v, hv, hvnd, hvmem⟩ := hidx j mi hmi'
        refine ⟨v, ?_, hvnd, hvmem⟩
        have hct : count + (j + 1) = count + 1 + j := by omega
        simp [hv, hct]

/-- C6: for every input manifest collection, the Identifier Mapper assigns
package ids that are unique and contiguous from 0, given in strict
first-occurrence order across the manifests (the dict's keys, in insertion
order, are exactly the first occurrences of the flattened input, and the
id stored at position `k` is `k`); and the manifest-id dict succeeds with
ids contiguous from 0, one entry per manifest in input order, each mapped to
the deduplicated set of the ids of that manifest's packages. -/
theorem identifier_mapper_invariants (manifest_list : List (List String)) :
    (generate_package_id_dict manifest_list).map Prod.snd
        = List.range (generate_package_id_dict manifest_list).length
    ∧ (generate_package_id_dict manifest_list).map Prod.fst
        = firstSeen [] manifest_list.flatten
    ∧ ((generate_package_id_dict manifest_list).map Prod.fst).Nodup
    ∧ ∃ manifest_id_dict : List (Nat × List Nat),
        generate_manifest_id_dict manifest_list
            (generate_package_id_dict manifest_list)
          = .ok manifest_id_dict
        ∧ manifest_id_dict.length = manifest_list.length
        ∧ manifest_id_dict.map Prod.fst = List.range manifest_list.length
        ∧ ∀ (i : Nat) (mi : List String), manifest_list[i]? = some mi →
            ∃ v : List Nat, manifest_id_dict[i]? = some (i, v) ∧ v.Nodup
              ∧ ∀ x : Nat, x ∈ v ↔ ∃ p ∈ mi,
                  (generate_package_id_dict manifest_list).lookup p = some x := by
  have hfold : generate_package_id_dict manifest_list
      = (manifest_list.flatten.foldl genPkgStep ([], 0)).1 := by
    unfold generate_package_id_dict
    rw [foldl_manifests_flatten]
  have hinv := foldl_genPkgStep_inv manifest_list.flatten ([], 0) rfl rfl
  have hkeys : (generate_package_id_dict manifest_list).map Prod.fst
      = firstSeen [] manifest_list.flatten := by
    rw [hfold]
    simpa using foldl_genPkgStep_keys manifest_list.flatten ([], 0)
  have hids : (generate_package_id_dict manifest_list).map Prod.snd
      = List.range (generate_package_id_dict manifest_list).length := by
    rw [hfold]
    exact hinv.2
  have hnd : ((generate_package_id_dict manifest_list).map Prod.fst).Nodup := by
    rw [hkeys]
    exact (firstSeen_nodup_not_seen manifest_list.flatten []).1
  have hcov : ∀ m ∈ manifest_list, ∀ p ∈ m,
      ((generate_package_id_dict manifest_list).lookup p).isSome = true := by
    intro m hm p hp
    rw [lookup_isSome_iff_mem_keys, hkeys]
    have hflat : p ∈ manifest_list.flatten := List.mem_flatten.2 ⟨m, hm, hp⟩
    rcases mem_seen_or_firstSeen manifest_list.flatten [] p hflat with hseen | hfs
    · simp at hseen
    · exact hfs
  obtain ⟨tail, htail, hlen, hidx⟩ :=
    genMnfAux_ok (generate_package_id_dict manifest_list) manifest_list 0 [] hcov
  refine ⟨hids, hkeys, hnd, tail, ?_, hlen, ?_, ?_⟩
  · simpa [generate_manifest_id_dict] using htail
  · apply List.ext_getElem?
    intro j
    by_cases hj : j < manifest_list.length
    · obtain ⟨mj, hm⟩ : ∃ mj, manifest_list[j]? = some mj :=
        ⟨_, List.getElem?_eq_getElem hj⟩
      obtain ⟨v, hv, _, _⟩ := hidx j mj hm
      rw [List.getElem?_map, hv, List.getElem?_range hj]
      simp
    · have h1 : tail[j]? = none := List.getElem?_eq_none (by rw [hlen]; omega)
      have h2 : (List.range manifest_list.length)[j]? = none :=
        List.getElem?_eq_none (by simpa using Nat.le_of_not_lt hj)
      rw [List.getElem?_map, h1, h2]
      rfl
  · intro i mi hmi
    obtain ⟨v, hv, hvnd, hvmem⟩ := hidx i mi hmi
    exact ⟨v, by simpa using hv, hvnd, hvmem⟩

end Train
